import Mathlib

/-!
Verification of the recursive directory crawler / idempotent mirroring
subsystem (`proprocessing/01_scrape.py`).

Python strings are modelled as `List Char`, the local filesystem as an
association list from paths to objects, and the remote server as an
inductive tree: fetching a URL either raises a network error or returns a
response carrying an HTTP-success flag, a raw body, and the sequence of
anchors that parsing the body as HTML yields.  `download_recursive` is
translated step by step into `crawlNode`/`crawlEntries`, instrumented with
an event trace recording listing fetches, file fetches, writes and skips.
-/

/-- Python `str`, modelled as a list of characters. -/
abbrev PStr := List Char

/-- Coerce a Lean string literal to a modelled Python string. -/
def pstr (s : String) : PStr := s.data

/-- Python `h.endswith("/")`. -/
def endsSlash (h : PStr) : Bool :=
  match h.getLast? with
  | some c => c = '/'
  | none => false

/-- Python `h.startswith("/")` (used by `os.path.join`). -/
def startsSlash : PStr → Bool
  | [] => false
  | c :: _ => c = '/'

/-- Remove leading `'/'` characters. -/
def lstripSlash : PStr → PStr
  | [] => []
  | c :: rest => if c = '/' then lstripSlash rest else c :: rest

/-- Python `h.strip("/")`: remove `'/'` from both ends. -/
def stripSlash (h : PStr) : PStr :=
  (lstripSlash ((lstripSlash h).reverse)).reverse

/-- `name` with only trailing separators trimmed.  Modelled from the spec:
the spec's "trim trailing separator from name" for the child-directory
computation; the source instead uses `strip("/")` (`stripSlash`). -/
def rstripSlash (h : PStr) : PStr :=
  (lstripSlash h.reverse).reverse

/-- POSIX `os.path.join(a, b)` for two components: `b` if `b` is absolute,
otherwise `a ++ b` when `a` is empty or already ends with the separator,
otherwise `a ++ "/" ++ b`. -/
def ospJoin (a b : PStr) : PStr :=
  if startsSlash b then b
  else if a = [] ∨ endsSlash a then a ++ b
  else a ++ '/' :: b

/-- One attempt of the fixed regex core `extent_v4.0.tif` at the head of the
list, followed by Python `$` (end of string, or a sole trailing newline).
The two `.` of the pattern match any character except newline. -/
def coreEnd : PStr → Bool
  | 'e' :: 'x' :: 't' :: 'e' :: 'n' :: 't' :: '_' :: 'v' :: '4' :: c1 :: '0' :: c2 :: 't' :: 'i' :: 'f' :: rest =>
      (c1 != '\n') && (c2 != '\n') && (rest == [] || rest == ['\n'])
  | _ => false

/-- Python `re.compile(r".*extent_v4.0.tif$").match(h)`: the leading `.*`
consumes any (possibly empty) newline-free prefix, then the core must match
up to `$`. -/
def reMatch : PStr → Bool
  | [] => false
  | c :: rest => coreEnd (c :: rest) || ((c != '\n') && reMatch rest)

/-- A filesystem object: a directory or a regular file with raw bytes. -/
inductive FSObj where
  | dir : FSObj
  | file (content : List Nat) : FSObj
deriving DecidableEq, Repr

/-- The local filesystem: an association list from paths to objects. -/
abbrev FS := List (PStr × FSObj)

def fsLookup : FS → PStr → Option FSObj
  | [], _ => none
  | (q, o) :: rest, p => if q = p then some o else fsLookup rest p

/-- Python `os.path.exists(p)`. -/
def fsExists (fs : FS) (p : PStr) : Bool := (fsLookup fs p).isSome

/-- The exceptions the script can raise. -/
inductive PyErr where
  /-- a `requests` exception: network-level failure of a GET -/
  | fetchError : PyErr
  /-- `None.endswith(...)`: the anchor had no `href` attribute -/
  | attributeError : PyErr
  /-- `os.makedirs` target exists and is not a directory -/
  | fileExistsError : PyErr
deriving DecidableEq, Repr

/-- Python `os.makedirs(p, exist_ok=True)`: no-op if `p` is already a
directory, error if a non-directory sits at `p`, else create the directory.
(Creation of missing intermediate parents is not modelled: the crawl creates
each level of the mirror in descending order before using it.) -/
def makedirs (fs : FS) (p : PStr) : Except PyErr FS :=
  match fsLookup fs p with
  | some .dir => .ok fs
  | some (.file _) => .error .fileExistsError
  | none => .ok ((p, .dir) :: fs)

/-- Python `open(path, "wb")` followed by `f.write(content)`: create or
overwrite the object at `path`. -/
def fsWrite : FS → PStr → List Nat → FS
  | [], p, content => [(p, .file content)]
  | (q, o) :: rest, p, content =>
      if q = p then (p, .file content) :: rest
      else (q, o) :: fsWrite rest p content

mutual
/-- A remote URL's behaviour when fetched: `netFail` is a raised `requests`
exception; `resp ok body anchors` is a response with HTTP-success flag `ok`
(the script never inspects it), raw body bytes `body`, and the anchors that
`BeautifulSoup(body).find_all("a")` yields (`html.parser` accepts any
input, so parsing itself never fails). -/
inductive RNode where
  | netFail : RNode
  | resp (ok : Bool) (body : List Nat) (anchors : List REntry) : RNode

/-- One parsed anchor: its `href` attribute (`none` when absent) and the
remote behaviour of the URL the href resolves to. -/
inductive REntry where
  | mk (href : Option PStr) (node : RNode) : REntry
end

/-- Observable events of a crawl.  Remote locations are identified by the
traversal path: the list of raw hrefs followed from the root. -/
inductive Ev where
  /-- a GET of a directory listing, and the local dir mirrored for it -/
  | listFetch (rpath : List PStr) (lpath : PStr)
  /-- a GET of a file (a network call for that file) -/
  | fileFetch (rpath : List PStr)
  /-- a matched file whose local path already existed: no network call -/
  | skipped (rpath : List PStr) (lpath : PStr)
  /-- a matched file fetched and written to its local path -/
  | downloaded (rpath : List PStr) (lpath : PStr)
deriving DecidableEq, Repr

/-- Result of a (partial) crawl: the filesystem, the event trace, and the
uncaught Python exception, if one aborted the run. -/
structure CrawlRes where
  fs : FS
  evs : List Ev
  err : Option PyErr
deriving DecidableEq, Repr

mutual
/-- `download_recursive(url, outdir)`:
`os.makedirs(outdir, exist_ok=True)`; `r = requests.get(url)` (raises on
network failure; the status code is never checked); parse `r.text`;
iterate `soup.find_all("a")[1:]` (the first anchor is dropped). -/
def crawlNode (rpath : List PStr) (node : RNode) (outdir : PStr) (fs : FS) :
    CrawlRes :=
  match makedirs fs outdir with
  | .error e => ⟨fs, [], some e⟩
  | .ok fs1 =>
    match node with
    | .netFail => ⟨fs1, [.listFetch rpath outdir], some .fetchError⟩
    | .resp _ _ [] => ⟨fs1, [.listFetch rpath outdir], none⟩
    | .resp _ _ (_ :: rest) =>
      let r := crawlEntries rpath rest outdir fs1
      ⟨r.fs, .listFetch rpath outdir :: r.evs, r.err⟩

/-- The body of the `for link in soup.find_all("a")[1:]` loop.
`href = link.get("href")` (`None.endswith` raises `AttributeError`);
if `href.endswith("/")` recurse into
`os.path.join(outdir, href.strip("/"))`; `elif pattern.match(href)`
download to `os.path.join(outdir, href)` unless `os.path.exists` holds;
an uncaught exception aborts the remaining iterations. -/
def crawlEntries (rpath : List PStr) (entries : List REntry) (outdir : PStr)
    (fs : FS) : CrawlRes :=
  match entries with
  | [] => ⟨fs, [], none⟩
  | .mk href? child :: rest =>
    match href? with
    | none => ⟨fs, [], some .attributeError⟩
    | some h =>
      if endsSlash h then
        let r := crawlNode (rpath ++ [h]) child (ospJoin outdir (stripSlash h)) fs
        match r.err with
        | some e => ⟨r.fs, r.evs, some e⟩
        | none =>
          let r2 := crawlEntries rpath rest outdir r.fs
          ⟨r2.fs, r.evs ++ r2.evs, r2.err⟩
      else if reMatch h then
        let path := ospJoin outdir h
        if fsExists fs path then
          let r2 := crawlEntries rpath rest outdir fs
          ⟨r2.fs, .skipped (rpath ++ [h]) path :: r2.evs, r2.err⟩
        else
          match child with
          | .netFail => ⟨fs, [.fileFetch (rpath ++ [h])], some .fetchError⟩
          | .resp _ content _ =>
            let r2 := crawlEntries rpath rest outdir (fsWrite fs (ospJoin outdir h) content)
            ⟨r2.fs, .fileFetch (rpath ++ [h]) :: .downloaded (rpath ++ [h]) path :: r2.evs, r2.err⟩
      else crawlEntries rpath rest outdir fs
end

/-! ### Unfolding lemmas

The mutual recursion is compiled structurally, so each constructor shape
unfolds by `rfl`; these lemmas make the unfoldings available to `rw`. -/

theorem crawlNode_netFail_eq (rpath : List PStr) (outdir : PStr) (fs : FS) :
    crawlNode rpath .netFail outdir fs =
      match makedirs fs outdir with
      | .error e => ⟨fs, [], some e⟩
      | .ok fs1 => ⟨fs1, [.listFetch rpath outdir], some .fetchError⟩ := rfl

theorem crawlNode_nil_eq (rpath : List PStr) (ok : Bool) (body : List Nat)
    (outdir : PStr) (fs : FS) :
    crawlNode rpath (.resp ok body []) outdir fs =
      match makedirs fs outdir with
      | .error e => ⟨fs, [], some e⟩
      | .ok fs1 => ⟨fs1, [.listFetch rpath outdir], none⟩ := rfl

theorem crawlNode_cons_eq (rpath : List PStr) (ok : Bool) (body : List Nat)
    (hd : REntry) (rest : List REntry) (outdir : PStr) (fs : FS) :
    crawlNode rpath (.resp ok body (hd :: rest)) outdir fs =
      match makedirs fs outdir with
      | .error e => ⟨fs, [], some e⟩
      | .ok fs1 =>
        ⟨(crawlEntries rpath rest outdir fs1).fs,
         .listFetch rpath outdir :: (crawlEntries rpath rest outdir fs1).evs,
         (crawlEntries rpath rest outdir fs1).err⟩ := rfl

theorem crawlEntries_nil_eq (rpath : List PStr) (outdir : PStr) (fs : FS) :
    crawlEntries rpath [] outdir fs = ⟨fs, [], none⟩ := rfl

theorem crawlEntries_none_eq (rpath : List PStr) (child : RNode)
    (rest : List REntry) (outdir : PStr) (fs : FS) :
    crawlEntries rpath (.mk none child :: rest) outdir fs =
      ⟨fs, [], some .attributeError⟩ := rfl

theorem crawlEntries_some_eq (rpath : List PStr) (h : PStr) (child : RNode)
    (rest : List REntry) (outdir : PStr) (fs : FS) :
    crawlEntries rpath (.mk (some h) child :: rest) outdir fs =
      if endsSlash h then
        match (crawlNode (rpath ++ [h]) child (ospJoin outdir (stripSlash h)) fs).err with
        | some e =>
          ⟨(crawlNode (rpath ++ [h]) child (ospJoin outdir (stripSlash h)) fs).fs,
           (crawlNode (rpath ++ [h]) child (ospJoin outdir (stripSlash h)) fs).evs,
           some e⟩
        | none =>
          ⟨(crawlEntries rpath rest outdir
              (crawlNode (rpath ++ [h]) child (ospJoin outdir (stripSlash h)) fs).fs).fs,
           (crawlNode (rpath ++ [h]) child (ospJoin outdir (stripSlash h)) fs).evs ++
             (crawlEntries rpath rest outdir
               (crawlNode (rpath ++ [h]) child (ospJoin outdir (stripSlash h)) fs).fs).evs,
           (crawlEntries rpath rest outdir
             (crawlNode (rpath ++ [h]) child (ospJoin outdir (stripSlash h)) fs).fs).err⟩
      else if reMatch h then
        if fsExists fs (ospJoin outdir h) then
          ⟨(crawlEntries rpath rest outdir fs).fs,
           .skipped (rpath ++ [h]) (ospJoin outdir h) :: (crawlEntries rpath rest outdir fs).evs,
           (crawlEntries rpath rest outdir fs).err⟩
        else
          match child with
          | .netFail => ⟨fs, [.fileFetch (rpath ++ [h])], some .fetchError⟩
          | .resp _ content _ =>
            ⟨(crawlEntries rpath rest outdir (fsWrite fs (ospJoin outdir h) content)).fs,
             .fileFetch (rpath ++ [h]) :: .downloaded (rpath ++ [h]) (ospJoin outdir h) ::
               (crawlEntries rpath rest outdir (fsWrite fs (ospJoin outdir h) content)).evs,
             (crawlEntries rpath rest outdir (fsWrite fs (ospJoin outdir h) content)).err⟩
      else crawlEntries rpath rest outdir fs := rfl

/-! ### Filesystem lemmas -/

theorem makedirs_mono {fs fs' : FS} {p : PStr} (hmk : makedirs fs p = .ok fs')
    {q : PStr} {v : FSObj} (hq : fsLookup fs q = some v) :
    fsLookup fs' q = some v := by
  unfold makedirs at hmk
  split at hmk
  · cases hmk; exact hq
  · cases hmk
  · rename_i hnone
    cases hmk
    simp only [fsLookup]
    by_cases hpq : p = q
    · subst hpq; rw [hnone] at hq; cases hq
    · simp [hpq, hq]

theorem makedirs_ok_lookup {fs fs' : FS} {p : PStr}
    (hmk : makedirs fs p = .ok fs') : fsLookup fs' p = some .dir := by
  unfold makedirs at hmk
  split at hmk
  · rename_i hdir; cases hmk; exact hdir
  · cases hmk
  · cases hmk; simp [fsLookup]

theorem makedirs_dir_noop {fs : FS} {p : PStr}
    (hdir : fsLookup fs p = some .dir) : makedirs fs p = .ok fs := by
  unfold makedirs
  rw [hdir]

theorem fsWrite_mono {fs : FS} {p : PStr} {c : List Nat}
    (hpe : fsExists fs p = false) {q : PStr} {v : FSObj}
    (hq : fsLookup fs q = some v) :
    fsLookup (fsWrite fs p c) q = some v := by
  induction fs with
  | nil => simp [fsLookup] at hq
  | cons hd tl ih =>
    obtain ⟨a, o⟩ := hd
    simp only [fsExists, fsLookup] at hpe
    by_cases hap : a = p
    · simp [hap] at hpe
    · simp only [fsWrite, if_neg hap, fsLookup]
      simp only [fsLookup] at hq
      by_cases haq : a = q
      · simpa [haq] using hq
      · simp only [if_neg haq] at hq ⊢
        exact ih (by simpa [fsExists, fsLookup, hap] using hpe) hq

theorem fsWrite_lookup_self {fs : FS} {p : PStr} {c : List Nat} :
    fsLookup (fsWrite fs p c) p = some (.file c) := by
  induction fs with
  | nil => simp [fsWrite, fsLookup]
  | cons hd tl ih =>
    obtain ⟨a, o⟩ := hd
    by_cases hap : a = p
    · simp [fsWrite, hap, fsLookup]
    · simp [fsWrite, hap, fsLookup, ih]

/-- `g` contains every binding of `fs` (the crawl only ever inserts). -/
def FSExt (fs g : FS) : Prop :=
  ∀ p v, fsLookup fs p = some v → fsLookup g p = some v

theorem FSExt_refl (fs : FS) : FSExt fs fs := fun _ _ h => h

theorem FSExt_trans {fs g h : FS} (h1 : FSExt fs g) (h2 : FSExt g h) :
    FSExt fs h := fun p v hp => h2 p v (h1 p v hp)

/-! ### Monotonicity: a crawl never removes or overwrites a binding -/

theorem crawlEntries_mono :
    ∀ (rpath : List PStr) (entries : List REntry) (outdir : PStr) (fs : FS),
      FSExt fs (crawlEntries rpath entries outdir fs).fs := by
  apply crawlEntries.induct
    (motive_1 := fun rpath node outdir fs =>
      FSExt fs (crawlNode rpath node outdir fs).fs)
    (motive_2 := fun rpath entries outdir fs =>
      FSExt fs (crawlEntries rpath entries outdir fs).fs)
  case case1 =>
    intro t rpath outdir fs e hmk
    cases t with
    | netFail => rw [crawlNode_netFail_eq, hmk]; exact FSExt_refl fs
    | resp ok body anchors =>
      cases anchors with
      | nil => rw [crawlNode_nil_eq, hmk]; exact FSExt_refl fs
      | cons hd rest => rw [crawlNode_cons_eq, hmk]; exact FSExt_refl fs
  case case2 =>
    intro rpath outdir fs fs1 hmk
    rw [crawlNode_netFail_eq, hmk]
    exact fun p v h => makedirs_mono hmk h
  case case3 =>
    intro rpath outdir fs fs1 hmk ok body
    rw [crawlNode_nil_eq, hmk]
    exact fun p v h => makedirs_mono hmk h
  case case4 =>
    intro rpath outdir fs fs1 hmk ok body head rest ih
    rw [crawlNode_cons_eq, hmk]
    exact fun p v h => ih p v (makedirs_mono hmk h)
  case case5 =>
    intro rpath outdir fs
    rw [crawlEntries_nil_eq]
    exact FSExt_refl fs
  case case6 =>
    intro rpath outdir fs child rest
    rw [crawlEntries_none_eq]
    exact FSExt_refl fs
  case case7 =>
    intro rpath outdir fs child rest h hends r e herr ih
    rw [crawlEntries_some_eq, if_pos hends,
      show (crawlNode (rpath ++ [h]) child (ospJoin outdir (stripSlash h)) fs).err
        = some e from herr]
    exact ih
  case case8 =>
    intro rpath outdir fs child rest h hends r herr ih1 ih2
    rw [crawlEntries_some_eq, if_pos hends,
      show (crawlNode (rpath ++ [h]) child (ospJoin outdir (stripSlash h)) fs).err
        = none from herr]
    exact FSExt_trans ih1 ih2
  case case9 =>
    intro rpath outdir fs child rest h hends hmatch path hex ih
    rw [crawlEntries_some_eq, if_neg hends, if_pos hmatch, if_pos hex]
    exact ih
  case case10 =>
    intro rpath outdir fs rest h hends hmatch path hnex
    rw [crawlEntries_some_eq, if_neg hends, if_pos hmatch, if_neg hnex]
    exact FSExt_refl fs
  case case11 =>
    intro rpath outdir fs rest h hends hmatch path hnex ok content anchors ih
    rw [crawlEntries_some_eq, if_neg hends, if_pos hmatch, if_neg hnex]
    intro p v hpv
    exact ih p v (fsWrite_mono (by simpa using hnex) hpv)
  case case12 =>
    intro rpath outdir fs child rest h hends hmatch ih
    rw [crawlEntries_some_eq, if_neg hends, if_neg hmatch]
    exact ih

theorem crawlNode_mono :
    ∀ (rpath : List PStr) (node : RNode) (outdir : PStr) (fs : FS),
      FSExt fs (crawlNode rpath node outdir fs).fs := by
  intro rpath node outdir fs
  cases hmk : makedirs fs outdir with
  | error e =>
    cases node with
    | netFail => rw [crawlNode_netFail_eq, hmk]; exact FSExt_refl fs
    | resp ok body anchors =>
      cases anchors with
      | nil => rw [crawlNode_nil_eq, hmk]; exact FSExt_refl fs
      | cons hd rest => rw [crawlNode_cons_eq, hmk]; exact FSExt_refl fs
  | ok fs1 =>
    cases node with
    | netFail =>
      rw [crawlNode_netFail_eq, hmk]
      exact fun p v h => makedirs_mono hmk h
    | resp ok body anchors =>
      cases anchors with
      | nil =>
        rw [crawlNode_nil_eq, hmk]
        exact fun p v h => makedirs_mono hmk h
      | cons hd rest =>
        rw [crawlNode_cons_eq, hmk]
        exact fun p v h =>
          crawlEntries_mono rpath rest outdir fs1 p v (makedirs_mono hmk h)

/-! ### Second-run behaviour: idempotence of the crawl -/

/-- No network call for a file occurs in the trace (neither a fetch nor a
write of a downloaded body). -/
def noFetch : List Ev → Bool
  | [] => true
  | ev :: rest =>
    (match ev with
     | .fileFetch _ => false
     | .downloaded _ _ => false
     | _ => true) && noFetch rest

theorem noFetch_append {a b : List Ev} :
    noFetch (a ++ b) = (noFetch a && noFetch b) := by
  induction a with
  | nil => simp [noFetch]
  | cons ev rest ih => simp [noFetch, ih, Bool.and_assoc]

theorem crawlEntries_second :
    ∀ (rpath : List PStr) (entries : List REntry) (outdir : PStr) (fs : FS),
      (crawlEntries rpath entries outdir fs).err = none →
      ∀ g, FSExt (crawlEntries rpath entries outdir fs).fs g →
        (crawlEntries rpath entries outdir g).fs = g ∧
        (crawlEntries rpath entries outdir g).err = none ∧
        noFetch (crawlEntries rpath entries outdir g).evs = true := by
  apply crawlEntries.induct
    (motive_1 := fun rpath node outdir fs =>
      (crawlNode rpath node outdir fs).err = none →
      ∀ g, FSExt (crawlNode rpath node outdir fs).fs g →
        (crawlNode rpath node outdir g).fs = g ∧
        (crawlNode rpath node outdir g).err = none ∧
        noFetch (crawlNode rpath node outdir g).evs = true)
    (motive_2 := fun rpath entries outdir fs =>
      (crawlEntries rpath entries outdir fs).err = none →
      ∀ g, FSExt (crawlEntries rpath entries outdir fs).fs g →
        (crawlEntries rpath entries outdir g).fs = g ∧
        (crawlEntries rpath entries outdir g).err = none ∧
        noFetch (crawlEntries rpath entries outdir g).evs = true)
  case case1 =>
    intro t rpath outdir fs e hmk herr
    exfalso
    cases t with
    | netFail => rw [crawlNode_netFail_eq, hmk] at herr; cases herr
    | resp ok body anchors =>
      cases anchors with
      | nil => rw [crawlNode_nil_eq, hmk] at herr; cases herr
      | cons hd rest => rw [crawlNode_cons_eq, hmk] at herr; cases herr
  case case2 =>
    intro rpath outdir fs fs1 hmk herr
    rw [crawlNode_netFail_eq, hmk] at herr
    cases herr
  case case3 =>
    intro rpath outdir fs fs1 hmk ok body herr g hg
    rw [crawlNode_nil_eq, hmk] at hg
    have hdir : fsLookup g outdir = some .dir :=
      hg outdir .dir (makedirs_ok_lookup hmk)
    rw [crawlNode_nil_eq, makedirs_dir_noop hdir]
    exact ⟨rfl, rfl, rfl⟩
  case case4 =>
    intro rpath outdir fs fs1 hmk ok body head rest ih herr g hg
    rw [crawlNode_cons_eq, hmk] at herr hg
    have hdir : fsLookup g outdir = some .dir :=
      hg outdir .dir
        (crawlEntries_mono rpath rest outdir fs1 outdir .dir (makedirs_ok_lookup hmk))
    rw [crawlNode_cons_eq, makedirs_dir_noop hdir]
    obtain ⟨h1, h2, h3⟩ := ih herr g hg
    exact ⟨h1, h2, by simp [noFetch, h3]⟩
  case case5 =>
    intro rpath outdir fs herr g hg
    rw [crawlEntries_nil_eq]
    exact ⟨rfl, rfl, rfl⟩
  case case6 =>
    intro rpath outdir fs child rest herr
    rw [crawlEntries_none_eq] at herr
    cases herr
  case case7 =>
    intro rpath outdir fs child rest h hends r e herr ih hnone
    rw [crawlEntries_some_eq, if_pos hends,
      show (crawlNode (rpath ++ [h]) child (ospJoin outdir (stripSlash h)) fs).err
        = some e from herr] at hnone
    cases hnone
  case case8 =>
    intro rpath outdir fs child rest h hends r herr ih1 ih2 hnone g hg
    rw [crawlEntries_some_eq, if_pos hends,
      show (crawlNode (rpath ++ [h]) child (ospJoin outdir (stripSlash h)) fs).err
        = none from herr] at hnone hg
    have hsubg : FSExt (crawlNode (rpath ++ [h]) child (ospJoin outdir (stripSlash h)) fs).fs g :=
      FSExt_trans (crawlEntries_mono rpath rest outdir _) hg
    obtain ⟨s1, s2, s3⟩ := ih1 herr g hsubg
    obtain ⟨t1, t2, t3⟩ := ih2 hnone g hg
    rw [crawlEntries_some_eq, if_pos hends, s2, s1]
    exact ⟨t1, t2, by simp [noFetch_append, s3, t3]⟩
  case case9 =>
    intro rpath outdir fs child rest h hends hmatch path hex ih hnone g hg
    rw [crawlEntries_some_eq, if_neg hends, if_pos hmatch, if_pos hex] at hnone hg
    have hexg : fsExists g (ospJoin outdir h) = true := by
      simp only [fsExists, Option.isSome_iff_exists] at hex ⊢
      obtain ⟨v, hv⟩ := hex
      exact ⟨v, FSExt_trans (crawlEntries_mono rpath rest outdir fs) hg _ v hv⟩
    obtain ⟨t1, t2, t3⟩ := ih hnone g hg
    rw [crawlEntries_some_eq, if_neg hends, if_pos hmatch, if_pos hexg]
    exact ⟨t1, t2, by simp [noFetch, t3]⟩
  case case10 =>
    intro rpath outdir fs rest h hends hmatch path hnex hnone
    rw [crawlEntries_some_eq, if_neg hends, if_pos hmatch,
      if_neg hnex] at hnone
    cases hnone
  case case11 =>
    intro rpath outdir fs rest h hends hmatch path hnex ok content anchors ih hnone g hg
    rw [crawlEntries_some_eq, if_neg hends, if_pos hmatch, if_neg hnex] at hnone hg
    have hexg : fsExists g (ospJoin outdir h) = true := by
      have hw : fsLookup (fsWrite fs (ospJoin outdir h) content) (ospJoin outdir h)
          = some (.file content) := fsWrite_lookup_self
      have := FSExt_trans (crawlEntries_mono rpath rest outdir _) hg _ _ hw
      simp [fsExists, this]
    obtain ⟨t1, t2, t3⟩ := ih hnone g hg
    rw [crawlEntries_some_eq, if_neg hends, if_pos hmatch, if_pos hexg]
    exact ⟨t1, t2, by simp [noFetch, t3]⟩
  case case12 =>
    intro rpath outdir fs child rest h hends hmatch ih hnone g hg
    rw [crawlEntries_some_eq, if_neg hends, if_neg hmatch] at hnone hg
    rw [crawlEntries_some_eq, if_neg hends, if_neg hmatch]
    exact ih hnone g hg

theorem crawlNode_second :
    ∀ (rpath : List PStr) (node : RNode) (outdir : PStr) (fs : FS),
      (crawlNode rpath node outdir fs).err = none →
      ∀ g, FSExt (crawlNode rpath node outdir fs).fs g →
        (crawlNode rpath node outdir g).fs = g ∧
        (crawlNode rpath node outdir g).err = none ∧
        noFetch (crawlNode rpath node outdir g).evs = true := by
  intro rpath node outdir fs herr g hg
  cases hmk : makedirs fs outdir with
  | error e =>
    exfalso
    cases node with
    | netFail => rw [crawlNode_netFail_eq, hmk] at herr; cases herr
    | resp ok body anchors =>
      cases anchors with
      | nil => rw [crawlNode_nil_eq, hmk] at herr; cases herr
      | cons hd rest => rw [crawlNode_cons_eq, hmk] at herr; cases herr
  | ok fs1 =>
    cases node with
    | netFail => rw [crawlNode_netFail_eq, hmk] at herr; cases herr
    | resp ok body anchors =>
      cases anchors with
      | nil =>
        rw [crawlNode_nil_eq, hmk] at hg
        have hdir : fsLookup g outdir = some .dir :=
          hg outdir .dir (makedirs_ok_lookup hmk)
        rw [crawlNode_nil_eq, makedirs_dir_noop hdir]
        exact ⟨rfl, rfl, rfl⟩
      | cons hd rest =>
        rw [crawlNode_cons_eq, hmk] at herr hg
        have hdir : fsLookup g outdir = some .dir :=
          hg outdir .dir
            (crawlEntries_mono rpath rest outdir fs1 outdir .dir (makedirs_ok_lookup hmk))
        rw [crawlNode_cons_eq, makedirs_dir_noop hdir]
        obtain ⟨h1, h2, h3⟩ := crawlEntries_second rpath rest outdir fs1 herr g hg
        exact ⟨h1, h2, by simp [noFetch, h3]⟩

/-! ### The remote-path to local-path mapping -/

/-- Local directory mirrored for the remote directory reached by following
the hrefs `rp` from a crawl rooted at local directory `outdir`: each
component is stripped of surrounding separators and joined. -/
def localDirOf (outdir : PStr) : List PStr → PStr
  | [] => outdir
  | d :: rest => localDirOf (ospJoin outdir (stripSlash d)) rest

/-- Local path computed for the remote file reached by following the hrefs
`rp`: intermediate components are stripped of surrounding separators, the
final component is joined raw. -/
def localFileOf (outdir : PStr) : List PStr → PStr
  | [] => outdir
  | [f] => ospJoin outdir f
  | d :: rest => localFileOf (ospJoin outdir (stripSlash d)) rest

/-- Every location named by a trace event carries the local path determined
by the pure mapping from its remote traversal path. -/
def evPathsOk (outdir : PStr) (rpath : List PStr) (ev : Ev) : Prop :=
  match ev with
  | .listFetch rp lp => ∃ suf, rp = rpath ++ suf ∧ lp = localDirOf outdir suf
  | .fileFetch _ => True
  | .skipped rp lp =>
      ∃ s suf, rp = rpath ++ s :: suf ∧ lp = localFileOf outdir (s :: suf)
  | .downloaded rp lp =>
      ∃ s suf, rp = rpath ++ s :: suf ∧ lp = localFileOf outdir (s :: suf)

theorem evPathsOk_lift {outdir : PStr} {rpath : List PStr} {h : PStr} {ev : Ev}
    (hok : evPathsOk (ospJoin outdir (stripSlash h)) (rpath ++ [h]) ev) :
    evPathsOk outdir rpath ev := by
  cases ev with
  | listFetch rp lp =>
    obtain ⟨suf, hrp, hlp⟩ := hok
    exact ⟨h :: suf, by simp [hrp], hlp⟩
  | fileFetch rp => trivial
  | skipped rp lp =>
    obtain ⟨s, suf, hrp, hlp⟩ := hok
    exact ⟨h, s :: suf, by simp [hrp], hlp⟩
  | downloaded rp lp =>
    obtain ⟨s, suf, hrp, hlp⟩ := hok
    exact ⟨h, s :: suf, by simp [hrp], hlp⟩

theorem crawlEntries_paths :
    ∀ (rpath : List PStr) (entries : List REntry) (outdir : PStr) (fs : FS),
      ∀ ev ∈ (crawlEntries rpath entries outdir fs).evs, evPathsOk outdir rpath ev := by
  apply crawlEntries.induct
    (motive_1 := fun rpath node outdir fs =>
      ∀ ev ∈ (crawlNode rpath node outdir fs).evs, evPathsOk outdir rpath ev)
    (motive_2 := fun rpath entries outdir fs =>
      ∀ ev ∈ (crawlEntries rpath entries outdir fs).evs, evPathsOk outdir rpath ev)
  case case1 =>
    intro t rpath outdir fs e hmk ev hmem
    exfalso
    cases t with
    | netFail => rw [crawlNode_netFail_eq, hmk] at hmem; simp at hmem
    | resp ok body anchors =>
      cases anchors with
      | nil => rw [crawlNode_nil_eq, hmk] at hmem; simp at hmem
      | cons hd rest => rw [crawlNode_cons_eq, hmk] at hmem; simp at hmem
  case case2 =>
    intro rpath outdir fs fs1 hmk ev hmem
    rw [crawlNode_netFail_eq, hmk] at hmem
    simp at hmem
    subst hmem
    exact ⟨[], by simp, rfl⟩
  case case3 =>
    intro rpath outdir fs fs1 hmk ok body ev hmem
    rw [crawlNode_nil_eq, hmk] at hmem
    simp at hmem
    subst hmem
    exact ⟨[], by simp, rfl⟩
  case case4 =>
    intro rpath outdir fs fs1 hmk ok body head rest ih ev hmem
    rw [crawlNode_cons_eq, hmk] at hmem
    simp only [List.mem_cons] at hmem
    rcases hmem with hmem | hmem
    · subst hmem
      exact ⟨[], by simp, rfl⟩
    · exact ih ev hmem
  case case5 =>
    intro rpath outdir fs ev hmem
    rw [crawlEntries_nil_eq] at hmem
    simp at hmem
  case case6 =>
    intro rpath outdir fs child rest ev hmem
    rw [crawlEntries_none_eq] at hmem
    simp at hmem
  case case7 =>
    intro rpath outdir fs child rest h hends r e herr ih ev hmem
    rw [crawlEntries_some_eq, if_pos hends,
      show (crawlNode (rpath ++ [h]) child (ospJoin outdir (stripSlash h)) fs).err
        = some e from herr] at hmem
    exact evPathsOk_lift (ih ev hmem)
  case case8 =>
    intro rpath outdir fs child rest h hends r herr ih1 ih2 ev hmem
    rw [crawlEntries_some_eq, if_pos hends,
      show (crawlNode (rpath ++ [h]) child (ospJoin outdir (stripSlash h)) fs).err
        = none from herr] at hmem
    simp only [List.mem_append] at hmem
    rcases hmem with hmem | hmem
    · exact evPathsOk_lift (ih1 ev hmem)
    · exact ih2 ev hmem
  case case9 =>
    intro rpath outdir fs child rest h hends hmatch path hex ih ev hmem
    rw [crawlEntries_some_eq, if_neg hends, if_pos hmatch, if_pos hex] at hmem
    simp only [List.mem_cons] at hmem
    rcases hmem with hmem | hmem
    · subst hmem
      exact ⟨h, [], rfl, rfl⟩
    · exact ih ev hmem
  case case10 =>
    intro rpath outdir fs rest h hends hmatch path hnex ev hmem
    rw [crawlEntries_some_eq, if_neg hends, if_pos hmatch, if_neg hnex] at hmem
    simp at hmem
    subst hmem
    trivial
  case case11 =>
    intro rpath outdir fs rest h hends hmatch path hnex ok content anchors ih ev hmem
    rw [crawlEntries_some_eq, if_neg hends, if_pos hmatch, if_neg hnex] at hmem
    simp only [List.mem_cons] at hmem
    rcases hmem with hmem | hmem | hmem
    · subst hmem; trivial
    · subst hmem
      exact ⟨h, [], rfl, rfl⟩
    · exact ih ev hmem
  case case12 =>
    intro rpath outdir fs child rest h hends hmatch ih ev hmem
    rw [crawlEntries_some_eq, if_neg hends, if_neg hmatch] at hmem
    exact ih ev hmem

theorem crawlNode_paths :
    ∀ (rpath : List PStr) (node : RNode) (outdir : PStr) (fs : FS),
      ∀ ev ∈ (crawlNode rpath node outdir fs).evs, evPathsOk outdir rpath ev := by
  intro rpath node outdir fs ev hmem
  cases hmk : makedirs fs outdir with
  | error e =>
    exfalso
    cases node with
    | netFail => rw [crawlNode_netFail_eq, hmk] at hmem; simp at hmem
    | resp ok body anchors =>
      cases anchors with
      | nil => rw [crawlNode_nil_eq, hmk] at hmem; simp at hmem
      | cons hd rest => rw [crawlNode_cons_eq, hmk] at hmem; simp at hmem
  | ok fs1 =>
    cases node with
    | netFail =>
      rw [crawlNode_netFail_eq, hmk] at hmem
      simp at hmem
      subst hmem
      exact ⟨[], by simp, rfl⟩
    | resp ok body anchors =>
      cases anchors with
      | nil =>
        rw [crawlNode_nil_eq, hmk] at hmem
        simp at hmem
        subst hmem
        exact ⟨[], by simp, rfl⟩
      | cons hd rest =>
        rw [crawlNode_cons_eq, hmk] at hmem
        simp only [List.mem_cons] at hmem
        rcases hmem with hmem | hmem
        · subst hmem
          exact ⟨[], by simp, rfl⟩
        · exact crawlEntries_paths rpath rest outdir fs1 ev hmem

/-! ### Recursion depth: tree depth and a fuel-indexed crawl -/

mutual
/-- Depth of the remote directory tree as the crawl sees it: one for the
directory itself plus the deepest directory-classified child among the
anchors after the unconditional first-anchor skip. -/
def treeDepth : RNode → Nat
  | .netFail => 1
  | .resp _ _ [] => 1
  | .resp _ _ (_ :: rest) => 1 + maxDepthEntries rest

/-- Deepest directory-classified entry of a listing tail. -/
def maxDepthEntries : List REntry → Nat
  | [] => 0
  | .mk href? child :: rest =>
    max (match href? with
         | some h => if endsSlash h then treeDepth child else 0
         | none => 0)
      (maxDepthEntries rest)
end

theorem treeDepth_netFail_eq : treeDepth .netFail = 1 := rfl

theorem treeDepth_nil_eq (ok : Bool) (body : List Nat) :
    treeDepth (.resp ok body []) = 1 := rfl

theorem treeDepth_cons_eq (ok : Bool) (body : List Nat) (hd : REntry)
    (rest : List REntry) :
    treeDepth (.resp ok body (hd :: rest)) = 1 + maxDepthEntries rest := rfl

theorem maxDepthEntries_nil_eq : maxDepthEntries [] = 0 := rfl

theorem maxDepthEntries_cons_eq (href? : Option PStr) (child : RNode)
    (rest : List REntry) :
    maxDepthEntries (.mk href? child :: rest) =
      max (match href? with
           | some h => if endsSlash h then treeDepth child else 0
           | none => 0)
        (maxDepthEntries rest) := rfl

theorem treeDepth_pos (node : RNode) : 1 ≤ treeDepth node := by
  cases node with
  | netFail => rw [treeDepth_netFail_eq]
  | resp ok body anchors =>
    cases anchors with
    | nil => rw [treeDepth_nil_eq]
    | cons hd rest => rw [treeDepth_cons_eq]; omega

/-- Sequencing of fuel-limited results: `none` (out of fuel) propagates. -/
def andThen (o : Option CrawlRes) (f : CrawlRes → Option CrawlRes) :
    Option CrawlRes :=
  match o with
  | none => none
  | some r => f r

theorem andThen_none (f : CrawlRes → Option CrawlRes) : andThen none f = none := rfl

theorem andThen_some (r : CrawlRes) (f : CrawlRes → Option CrawlRes) :
    andThen (some r) f = f r := rfl

/-- Continuation after a recursive directory crawl: an error in the subtree
aborts the loop (as the uncaught exception does); otherwise the loop
continues over the remaining entries from the subtree's filesystem. -/
def dirStep (r : CrawlRes) (k : FS → Option CrawlRes) : Option CrawlRes :=
  match r.err with
  | some e => some ⟨r.fs, r.evs, some e⟩
  | none =>
    andThen (k r.fs) fun r2 => some ⟨r2.fs, r.evs ++ r2.evs, r2.err⟩

theorem dirStep_err {r : CrawlRes} {e : PyErr} (herr : r.err = some e)
    (k : FS → Option CrawlRes) : dirStep r k = some ⟨r.fs, r.evs, some e⟩ := by
  unfold dirStep
  rw [herr]

theorem dirStep_ok {r : CrawlRes} (herr : r.err = none)
    (k : FS → Option CrawlRes) :
    dirStep r k =
      andThen (k r.fs) fun r2 => some ⟨r2.fs, r.evs ++ r2.evs, r2.err⟩ := by
  unfold dirStep
  rw [herr]

mutual
/-- `crawlNode` with an explicit bound on the depth of nested recursive
calls: `none` means the bound was hit before the call tree bottomed out. -/
def crawlNodeFuel : Nat → List PStr → RNode → PStr → FS → Option CrawlRes
  | 0, _, _, _, _ => none
  | fuel+1, rpath, node, outdir, fs =>
    match makedirs fs outdir with
    | .error e => some ⟨fs, [], some e⟩
    | .ok fs1 =>
      match node with
      | .netFail => some ⟨fs1, [.listFetch rpath outdir], some .fetchError⟩
      | .resp _ _ [] => some ⟨fs1, [.listFetch rpath outdir], none⟩
      | .resp _ _ (_ :: rest) =>
        andThen (crawlEntriesFuel fuel rpath rest outdir fs1) fun r =>
          some ⟨r.fs, .listFetch rpath outdir :: r.evs, r.err⟩

/-- `crawlEntries` under the same depth bound (the loop itself consumes no
fuel; only nested `crawlNodeFuel` calls do). -/
def crawlEntriesFuel : Nat → List PStr → List REntry → PStr → FS → Option CrawlRes
  | _, _, [], _, fs => some ⟨fs, [], none⟩
  | fuel, rpath, .mk href? child :: rest, outdir, fs =>
    match href? with
    | none => some ⟨fs, [], some .attributeError⟩
    | some h =>
      if endsSlash h then
        andThen (crawlNodeFuel fuel (rpath ++ [h]) child (ospJoin outdir (stripSlash h)) fs)
          fun r =>
            match r.err with
            | some e => some ⟨r.fs, r.evs, some e⟩
            | none =>
              andThen (crawlEntriesFuel fuel rpath rest outdir r.fs) fun r2 =>
                some ⟨r2.fs, r.evs ++ r2.evs, r2.err⟩
      else if reMatch h then
        if fsExists fs (ospJoin outdir h) then
          andThen (crawlEntriesFuel fuel rpath rest outdir fs) fun r2 =>
            some ⟨r2.fs, .skipped (rpath ++ [h]) (ospJoin outdir h) :: r2.evs, r2.err⟩
        else
          match child with
          | .netFail => some ⟨fs, [.fileFetch (rpath ++ [h])], some .fetchError⟩
          | .resp _ content _ =>
            andThen (crawlEntriesFuel fuel rpath rest outdir (fsWrite fs (ospJoin outdir h) content))
              fun r2 =>
                some ⟨r2.fs, .fileFetch (rpath ++ [h]) ::
                  .downloaded (rpath ++ [h]) (ospJoin outdir h) :: r2.evs, r2.err⟩
      else crawlEntriesFuel fuel rpath rest outdir fs
end

theorem crawlNodeFuel_zero_eq (rpath : List PStr) (node : RNode) (outdir : PStr)
    (fs : FS) : crawlNodeFuel 0 rpath node outdir fs = none := by
  cases node with
  | netFail => rfl
  | resp ok body anchors => cases anchors <;> rfl

theorem crawlNodeFuel_netFail_eq (fuel : Nat) (rpath : List PStr) (outdir : PStr)
    (fs : FS) :
    crawlNodeFuel (fuel + 1) rpath .netFail outdir fs =
      match makedirs fs outdir with
      | .error e => some ⟨fs, [], some e⟩
      | .ok fs1 => some ⟨fs1, [.listFetch rpath outdir], some .fetchError⟩ := rfl

theorem crawlNodeFuel_nil_eq (fuel : Nat) (rpath : List PStr) (ok : Bool)
    (body : List Nat) (outdir : PStr) (fs : FS) :
    crawlNodeFuel (fuel + 1) rpath (.resp ok body []) outdir fs =
      match makedirs fs outdir with
      | .error e => some ⟨fs, [], some e⟩
      | .ok fs1 => some ⟨fs1, [.listFetch rpath outdir], none⟩ := rfl

theorem crawlNodeFuel_cons_eq (fuel : Nat) (rpath : List PStr) (ok : Bool)
    (body : List Nat) (hd : REntry) (rest : List REntry) (outdir : PStr) (fs : FS) :
    crawlNodeFuel (fuel + 1) rpath (.resp ok body (hd :: rest)) outdir fs =
      match makedirs fs outdir with
      | .error e => some ⟨fs, [], some e⟩
      | .ok fs1 =>
        andThen (crawlEntriesFuel fuel rpath rest outdir fs1) fun r =>
          some ⟨r.fs, .listFetch rpath outdir :: r.evs, r.err⟩ := rfl

theorem crawlNodeFuel_err_eq {fs : FS} {outdir : PStr} {e : PyErr}
    (hmk : makedirs fs outdir = .error e) (fuel : Nat) (rpath : List PStr)
    (node : RNode) :
    crawlNodeFuel (fuel + 1) rpath node outdir fs = some ⟨fs, [], some e⟩ := by
  cases node with
  | netFail => rw [crawlNodeFuel_netFail_eq, hmk]
  | resp ok body anchors =>
    cases anchors with
    | nil => rw [crawlNodeFuel_nil_eq, hmk]
    | cons hd rest => rw [crawlNodeFuel_cons_eq, hmk]

theorem crawlNodeFuel_netFail_ok_eq {fs fs1 : FS} {outdir : PStr}
    (hmk : makedirs fs outdir = .ok fs1) (fuel : Nat) (rpath : List PStr) :
    crawlNodeFuel (fuel + 1) rpath .netFail outdir fs =
      some ⟨fs1, [.listFetch rpath outdir], some .fetchError⟩ := by
  rw [crawlNodeFuel_netFail_eq, hmk]

theorem crawlNodeFuel_nil_ok_eq {fs fs1 : FS} {outdir : PStr}
    (hmk : makedirs fs outdir = .ok fs1) (fuel : Nat) (rpath : List PStr)
    (ok : Bool) (body : List Nat) :
    crawlNodeFuel (fuel + 1) rpath (.resp ok body []) outdir fs =
      some ⟨fs1, [.listFetch rpath outdir], none⟩ := by
  rw [crawlNodeFuel_nil_eq, hmk]

theorem crawlNodeFuel_cons_ok_eq {fs fs1 : FS} {outdir : PStr}
    (hmk : makedirs fs outdir = .ok fs1) (fuel : Nat) (rpath : List PStr)
    (ok : Bool) (body : List Nat) (hd : REntry) (rest : List REntry) :
    crawlNodeFuel (fuel + 1) rpath (.resp ok body (hd :: rest)) outdir fs =
      andThen (crawlEntriesFuel fuel rpath rest outdir fs1) fun r =>
        some ⟨r.fs, .listFetch rpath outdir :: r.evs, r.err⟩ := by
  rw [crawlNodeFuel_cons_eq, hmk]

theorem crawlEntriesFuel_nil_eq (fuel : Nat) (rpath : List PStr) (outdir : PStr)
    (fs : FS) : crawlEntriesFuel fuel rpath [] outdir fs = some ⟨fs, [], none⟩ := rfl

theorem crawlEntriesFuel_none_eq (fuel : Nat) (rpath : List PStr) (child : RNode)
    (rest : List REntry) (outdir : PStr) (fs : FS) :
    crawlEntriesFuel fuel rpath (.mk none child :: rest) outdir fs =
      some ⟨fs, [], some .attributeError⟩ := rfl

theorem crawlEntriesFuel_some_eq (fuel : Nat) (rpath : List PStr) (h : PStr)
    (child : RNode) (rest : List REntry) (outdir : PStr) (fs : FS) :
    crawlEntriesFuel fuel rpath (.mk (some h) child :: rest) outdir fs =
      if endsSlash h then
        andThen (crawlNodeFuel fuel (rpath ++ [h]) child (ospJoin outdir (stripSlash h)) fs)
          (fun r =>
            match r.err with
            | some e => some ⟨r.fs, r.evs, some e⟩
            | none =>
              andThen (crawlEntriesFuel fuel rpath rest outdir r.fs) fun r2 =>
                some ⟨r2.fs, r.evs ++ r2.evs, r2.err⟩)
      else if reMatch h then
        if fsExists fs (ospJoin outdir h) then
          andThen (crawlEntriesFuel fuel rpath rest outdir fs) fun r2 =>
            some ⟨r2.fs, .skipped (rpath ++ [h]) (ospJoin outdir h) :: r2.evs, r2.err⟩
        else
          match child with
          | .netFail => some ⟨fs, [.fileFetch (rpath ++ [h])], some .fetchError⟩
          | .resp _ content _ =>
            andThen (crawlEntriesFuel fuel rpath rest outdir (fsWrite fs (ospJoin outdir h) content))
              fun r2 =>
                some ⟨r2.fs, .fileFetch (rpath ++ [h]) ::
                  .downloaded (rpath ++ [h]) (ospJoin outdir h) :: r2.evs, r2.err⟩
      else crawlEntriesFuel fuel rpath rest outdir fs := rfl

theorem crawlEntriesFuel_dir_eq {h : PStr} (hends : endsSlash h = true)
    (fuel : Nat) (rpath : List PStr) (child : RNode) (rest : List REntry)
    (outdir : PStr) (fs : FS) :
    crawlEntriesFuel fuel rpath (.mk (some h) child :: rest) outdir fs =
      andThen (crawlNodeFuel fuel (rpath ++ [h]) child (ospJoin outdir (stripSlash h)) fs)
        (fun r => dirStep r (crawlEntriesFuel fuel rpath rest outdir)) := by
  rw [crawlEntriesFuel_some_eq, if_pos hends]
  rfl

theorem crawlEntriesFuel_skip_eq {h : PStr} {outdir : PStr} {fs : FS}
    (hends : ¬endsSlash h = true) (hmatch : reMatch h = true)
    (hex : fsExists fs (ospJoin outdir h) = true)
    (fuel : Nat) (rpath : List PStr) (child : RNode) (rest : List REntry) :
    crawlEntriesFuel fuel rpath (.mk (some h) child :: rest) outdir fs =
      andThen (crawlEntriesFuel fuel rpath rest outdir fs) fun r2 =>
        some ⟨r2.fs, .skipped (rpath ++ [h]) (ospJoin outdir h) :: r2.evs, r2.err⟩ := by
  rw [crawlEntriesFuel_some_eq, if_neg hends, if_pos hmatch, if_pos hex]

theorem crawlEntriesFuel_fileFail_eq {h : PStr} {outdir : PStr} {fs : FS}
    (hends : ¬endsSlash h = true) (hmatch : reMatch h = true)
    (hex : ¬fsExists fs (ospJoin outdir h) = true)
    (fuel : Nat) (rpath : List PStr) (rest : List REntry) :
    crawlEntriesFuel fuel rpath (.mk (some h) .netFail :: rest) outdir fs =
      some ⟨fs, [.fileFetch (rpath ++ [h])], some .fetchError⟩ := by
  rw [crawlEntriesFuel_some_eq, if_neg hends, if_pos hmatch, if_neg hex]

theorem crawlEntriesFuel_fileWrite_eq {h : PStr} {outdir : PStr} {fs : FS}
    (hends : ¬endsSlash h = true) (hmatch : reMatch h = true)
    (hex : ¬fsExists fs (ospJoin outdir h) = true)
    (fuel : Nat) (rpath : List PStr) (ok : Bool) (content : List Nat)
    (anchors : List REntry) (rest : List REntry) :
    crawlEntriesFuel fuel rpath (.mk (some h) (.resp ok content anchors) :: rest) outdir fs =
      andThen (crawlEntriesFuel fuel rpath rest outdir (fsWrite fs (ospJoin outdir h) content))
        (fun r2 =>
          some ⟨r2.fs, .fileFetch (rpath ++ [h]) ::
            .downloaded (rpath ++ [h]) (ospJoin outdir h) :: r2.evs, r2.err⟩) := by
  rw [crawlEntriesFuel_some_eq, if_neg hends, if_pos hmatch, if_neg hex]

theorem crawlEntriesFuel_nomatch_eq {h : PStr} (hends : ¬endsSlash h = true)
    (hmatch : ¬reMatch h = true)
    (fuel : Nat) (rpath : List PStr) (child : RNode) (rest : List REntry)
    (outdir : PStr) (fs : FS) :
    crawlEntriesFuel fuel rpath (.mk (some h) child :: rest) outdir fs =
      crawlEntriesFuel fuel rpath rest outdir fs := by
  rw [crawlEntriesFuel_some_eq, if_neg hends, if_neg hmatch]

theorem crawlNode_err_eq {fs : FS} {outdir : PStr} {e : PyErr}
    (hmk : makedirs fs outdir = .error e) (rpath : List PStr) (node : RNode) :
    crawlNode rpath node outdir fs = ⟨fs, [], some e⟩ := by
  cases node with
  | netFail => rw [crawlNode_netFail_eq, hmk]
  | resp ok body anchors =>
    cases anchors with
    | nil => rw [crawlNode_nil_eq, hmk]
    | cons hd rest => rw [crawlNode_cons_eq, hmk]

theorem crawlNode_netFail_ok_eq {fs fs1 : FS} {outdir : PStr}
    (hmk : makedirs fs outdir = .ok fs1) (rpath : List PStr) :
    crawlNode rpath .netFail outdir fs =
      ⟨fs1, [.listFetch rpath outdir], some .fetchError⟩ := by
  rw [crawlNode_netFail_eq, hmk]

theorem crawlNode_nil_ok_eq {fs fs1 : FS} {outdir : PStr}
    (hmk : makedirs fs outdir = .ok fs1) (rpath : List PStr) (ok : Bool)
    (body : List Nat) :
    crawlNode rpath (.resp ok body []) outdir fs =
      ⟨fs1, [.listFetch rpath outdir], none⟩ := by
  rw [crawlNode_nil_eq, hmk]

theorem crawlNode_cons_ok_eq {fs fs1 : FS} {outdir : PStr}
    (hmk : makedirs fs outdir = .ok fs1) (rpath : List PStr) (ok : Bool)
    (body : List Nat) (hd : REntry) (rest : List REntry) :
    crawlNode rpath (.resp ok body (hd :: rest)) outdir fs =
      ⟨(crawlEntries rpath rest outdir fs1).fs,
       .listFetch rpath outdir :: (crawlEntries rpath rest outdir fs1).evs,
       (crawlEntries rpath rest outdir fs1).err⟩ := by
  rw [crawlNode_cons_eq, hmk]

theorem crawlEntries_dir_eq {h : PStr} (hends : endsSlash h = true)
    (rpath : List PStr) (child : RNode) (rest : List REntry)
    (outdir : PStr) (fs : FS) :
    crawlEntries rpath (.mk (some h) child :: rest) outdir fs =
      match (crawlNode (rpath ++ [h]) child (ospJoin outdir (stripSlash h)) fs).err with
      | some e =>
        ⟨(crawlNode (rpath ++ [h]) child (ospJoin outdir (stripSlash h)) fs).fs,
         (crawlNode (rpath ++ [h]) child (ospJoin outdir (stripSlash h)) fs).evs,
         some e⟩
      | none =>
        ⟨(crawlEntries rpath rest outdir
            (crawlNode (rpath ++ [h]) child (ospJoin outdir (stripSlash h)) fs).fs).fs,
         (crawlNode (rpath ++ [h]) child (ospJoin outdir (stripSlash h)) fs).evs ++
           (crawlEntries rpath rest outdir
             (crawlNode (rpath ++ [h]) child (ospJoin outdir (stripSlash h)) fs).fs).evs,
         (crawlEntries rpath rest outdir
           (crawlNode (rpath ++ [h]) child (ospJoin outdir (stripSlash h)) fs).fs).err⟩ := by
  rw [crawlEntries_some_eq, if_pos hends]

theorem crawlEntries_skip_eq {h : PStr} {outdir : PStr} {fs : FS}
    (hends : ¬endsSlash h = true) (hmatch : reMatch h = true)
    (hex : fsExists fs (ospJoin outdir h) = true)
    (rpath : List PStr) (child : RNode) (rest : List REntry) :
    crawlEntries rpath (.mk (some h) child :: rest) outdir fs =
      ⟨(crawlEntries rpath rest outdir fs).fs,
       .skipped (rpath ++ [h]) (ospJoin outdir h) :: (crawlEntries rpath rest outdir fs).evs,
       (crawlEntries rpath rest outdir fs).err⟩ := by
  rw [crawlEntries_some_eq, if_neg hends, if_pos hmatch, if_pos hex]

theorem crawlEntries_fileFail_eq {h : PStr} {outdir : PStr} {fs : FS}
    (hends : ¬endsSlash h = true) (hmatch : reMatch h = true)
    (hex : ¬fsExists fs (ospJoin outdir h) = true)
    (rpath : List PStr) (rest : List REntry) :
    crawlEntries rpath (.mk (some h) .netFail :: rest) outdir fs =
      ⟨fs, [.fileFetch (rpath ++ [h])], some .fetchError⟩ := by
  rw [crawlEntries_some_eq, if_neg hends, if_pos hmatch, if_neg hex]

theorem crawlEntries_fileWrite_eq {h : PStr} {outdir : PStr} {fs : FS}
    (hends : ¬endsSlash h = true) (hmatch : reMatch h = true)
    (hex : ¬fsExists fs (ospJoin outdir h) = true)
    (rpath : List PStr) (ok : Bool) (content : List Nat)
    (anchors : List REntry) (rest : List REntry) :
    crawlEntries rpath (.mk (some h) (.resp ok content anchors) :: rest) outdir fs =
      ⟨(crawlEntries rpath rest outdir (fsWrite fs (ospJoin outdir h) content)).fs,
       .fileFetch (rpath ++ [h]) :: .downloaded (rpath ++ [h]) (ospJoin outdir h) ::
         (crawlEntries rpath rest outdir (fsWrite fs (ospJoin outdir h) content)).evs,
       (crawlEntries rpath rest outdir (fsWrite fs (ospJoin outdir h) content)).err⟩ := by
  rw [crawlEntries_some_eq, if_neg hends, if_pos hmatch, if_neg hex]

theorem crawlEntries_nomatch_eq {h : PStr} (hends : ¬endsSlash h = true)
    (hmatch : ¬reMatch h = true) (rpath : List PStr) (child : RNode)
    (rest : List REntry) (outdir : PStr) (fs : FS) :
    crawlEntries rpath (.mk (some h) child :: rest) outdir fs =
      crawlEntries rpath rest outdir fs := by
  rw [crawlEntries_some_eq, if_neg hends, if_neg hmatch]

theorem fuel_entries_suffices (fuel : Nat)
    (hnode : ∀ (rpath : List PStr) (node : RNode) (outdir : PStr) (fs : FS),
      treeDepth node ≤ fuel →
      crawlNodeFuel fuel rpath node outdir fs = some (crawlNode rpath node outdir fs)) :
    ∀ (entries : List REntry) (rpath : List PStr) (outdir : PStr) (fs : FS),
      maxDepthEntries entries ≤ fuel →
      crawlEntriesFuel fuel rpath entries outdir fs =
        some (crawlEntries rpath entries outdir fs) := by
  intro entries
  induction entries with
  | nil =>
    intro rpath outdir fs _
    rw [crawlEntriesFuel_nil_eq, crawlEntries_nil_eq]
  | cons e rest ih =>
    obtain ⟨href?, child⟩ := e
    intro rpath outdir fs hdep
    rw [maxDepthEntries_cons_eq] at hdep
    have hdep2 : maxDepthEntries rest ≤ fuel := le_trans (le_max_right _ _) hdep
    cases href? with
    | none => rw [crawlEntriesFuel_none_eq, crawlEntries_none_eq]
    | some h =>
      by_cases hends : endsSlash h = true
      · have hchild : treeDepth child ≤ fuel := by
          have h1 := le_trans (le_max_left _ _) hdep
          simpa [hends] using h1
        rw [crawlEntriesFuel_dir_eq hends, crawlEntries_dir_eq hends,
          hnode _ child _ fs hchild]
        simp only [andThen_some]
        cases herr : (crawlNode (rpath ++ [h]) child (ospJoin outdir (stripSlash h)) fs).err with
        | some e => rw [dirStep_err herr]
        | none =>
          rw [dirStep_ok herr, ih rpath outdir
            (crawlNode (rpath ++ [h]) child (ospJoin outdir (stripSlash h)) fs).fs hdep2]
          rfl
      · by_cases hmatch : reMatch h = true
        · by_cases hex : fsExists fs (ospJoin outdir h) = true
          · rw [crawlEntriesFuel_skip_eq hends hmatch hex,
              crawlEntries_skip_eq hends hmatch hex, ih rpath outdir fs hdep2]
            simp only [andThen_some]
          · cases child with
            | netFail =>
              rw [crawlEntriesFuel_fileFail_eq hends hmatch hex,
                crawlEntries_fileFail_eq hends hmatch hex]
            | resp ok2 content anchors2 =>
              rw [crawlEntriesFuel_fileWrite_eq hends hmatch hex,
                crawlEntries_fileWrite_eq hends hmatch hex, ih rpath outdir _ hdep2]
              simp only [andThen_some]
        · rw [crawlEntriesFuel_nomatch_eq hends hmatch, crawlEntries_nomatch_eq hends hmatch]
          exact ih rpath outdir fs hdep2

theorem fuel_node_suffices :
    ∀ (fuel : Nat) (rpath : List PStr) (node : RNode) (outdir : PStr) (fs : FS),
      treeDepth node ≤ fuel →
      crawlNodeFuel fuel rpath node outdir fs = some (crawlNode rpath node outdir fs) := by
  intro fuel
  induction fuel with
  | zero =>
    intro rpath node outdir fs hdep
    exact absurd (le_trans (treeDepth_pos node) hdep) (by omega)
  | succ f ihf =>
    intro rpath node outdir fs hdep
    cases hmk : makedirs fs outdir with
    | error e => rw [crawlNodeFuel_err_eq hmk, crawlNode_err_eq hmk]
    | ok fs1 =>
      cases node with
      | netFail => rw [crawlNodeFuel_netFail_ok_eq hmk, crawlNode_netFail_ok_eq hmk]
      | resp ok body anchors =>
        cases anchors with
        | nil => rw [crawlNodeFuel_nil_ok_eq hmk, crawlNode_nil_ok_eq hmk]
        | cons hd rest =>
          rw [treeDepth_cons_eq] at hdep
          have hrest : maxDepthEntries rest ≤ f := by omega
          rw [crawlNodeFuel_cons_ok_eq hmk, crawlNode_cons_ok_eq hmk,
            fuel_entries_suffices f ihf rest rpath outdir fs1 hrest]
          simp only [andThen_some]

theorem fuel_entries_exact (fuel : Nat)
    (hnode : ∀ (rpath : List PStr) (node : RNode) (outdir : PStr) (fs : FS) (r : CrawlRes),
      crawlNodeFuel fuel rpath node outdir fs = some r →
      r = crawlNode rpath node outdir fs ∧
        ((crawlNode rpath node outdir fs).err = none → treeDepth node ≤ fuel)) :
    ∀ (entries : List REntry) (rpath : List PStr) (outdir : PStr) (fs : FS) (r : CrawlRes),
      crawlEntriesFuel fuel rpath entries outdir fs = some r →
      r = crawlEntries rpath entries outdir fs ∧
        ((crawlEntries rpath entries outdir fs).err = none →
          maxDepthEntries entries ≤ fuel) := by
  intro entries
  induction entries with
  | nil =>
    intro rpath outdir fs r hr
    rw [crawlEntriesFuel_nil_eq] at hr
    cases hr
    refine ⟨(crawlEntries_nil_eq rpath outdir fs).symm, fun _ => ?_⟩
    rw [maxDepthEntries_nil_eq]
    omega
  | cons e rest ih =>
    obtain ⟨href?, child⟩ := e
    intro rpath outdir fs r hr
    cases href? with
    | none =>
      rw [crawlEntriesFuel_none_eq] at hr
      cases hr
      refine ⟨(crawlEntries_none_eq rpath child rest outdir fs).symm, fun hco => ?_⟩
      rw [crawlEntries_none_eq] at hco
      cases (show (some PyErr.attributeError : Option PyErr) = none from hco)
    | some h =>
      by_cases hends : endsSlash h = true
      · rw [crawlEntriesFuel_dir_eq hends] at hr
        cases hf : crawlNodeFuel fuel (rpath ++ [h]) child (ospJoin outdir (stripSlash h)) fs with
        | none => rw [hf, andThen_none] at hr; cases hr
        | some r1 =>
          rw [hf] at hr
          simp only [andThen_some] at hr
          obtain ⟨hag1, hneed1⟩ := hnode _ _ _ _ _ hf
          subst hag1
          cases herr : (crawlNode (rpath ++ [h]) child (ospJoin outdir (stripSlash h)) fs).err with
          | some e =>
            rw [dirStep_err herr] at hr
            cases hr
            refine ⟨?_, fun hco => ?_⟩
            · rw [crawlEntries_dir_eq hends, herr]
            · rw [crawlEntries_dir_eq hends, herr] at hco
              cases (show (some e : Option PyErr) = none from hco)
          | none =>
            rw [dirStep_ok herr] at hr
            cases hf2 : crawlEntriesFuel fuel rpath rest outdir
                (crawlNode (rpath ++ [h]) child (ospJoin outdir (stripSlash h)) fs).fs with
            | none => rw [hf2, andThen_none] at hr; cases hr
            | some r2 =>
              rw [hf2] at hr
              simp only [andThen_some] at hr
              cases hr
              obtain ⟨hag2, hneed2⟩ := ih rpath outdir _ r2 hf2
              subst hag2
              refine ⟨?_, fun hco => ?_⟩
              · rw [crawlEntries_dir_eq hends, herr]
              · rw [crawlEntries_dir_eq hends, herr] at hco
                have hco2 : (crawlEntries rpath rest outdir
                    (crawlNode (rpath ++ [h]) child (ospJoin outdir (stripSlash h)) fs).fs).err
                    = none := hco
                rw [maxDepthEntries_cons_eq]
                exact max_le (by simpa [hends] using hneed1 herr) (hneed2 hco2)
      · by_cases hmatch : reMatch h = true
        · by_cases hex : fsExists fs (ospJoin outdir h) = true
          · rw [crawlEntriesFuel_skip_eq hends hmatch hex] at hr
            cases hf2 : crawlEntriesFuel fuel rpath rest outdir fs with
            | none => rw [hf2, andThen_none] at hr; cases hr
            | some r2 =>
              rw [hf2] at hr
              simp only [andThen_some] at hr
              cases hr
              obtain ⟨hag2, hneed2⟩ := ih rpath outdir fs r2 hf2
              subst hag2
              refine ⟨?_, fun hco => ?_⟩
              · rw [crawlEntries_skip_eq hends hmatch hex]
              · rw [crawlEntries_skip_eq hends hmatch hex] at hco
                have hco2 : (crawlEntries rpath rest outdir fs).err = none := hco
                rw [maxDepthEntries_cons_eq]
                exact max_le (by simp [hends]) (hneed2 hco2)
          · cases child with
            | netFail =>
              rw [crawlEntriesFuel_fileFail_eq hends hmatch hex] at hr
              cases hr
              refine ⟨?_, fun hco => ?_⟩
              · rw [crawlEntries_fileFail_eq hends hmatch hex]
              · rw [crawlEntries_fileFail_eq hends hmatch hex] at hco
                cases (show (some PyErr.fetchError : Option PyErr) = none from hco)
            | resp ok2 content anchors2 =>
              rw [crawlEntriesFuel_fileWrite_eq hends hmatch hex] at hr
              cases hf2 : crawlEntriesFuel fuel rpath rest outdir
                  (fsWrite fs (ospJoin outdir h) content) with
              | none => rw [hf2, andThen_none] at hr; cases hr
              | some r2 =>
                rw [hf2] at hr
                simp only [andThen_some] at hr
                cases hr
                obtain ⟨hag2, hneed2⟩ := ih rpath outdir _ r2 hf2
                subst hag2
                refine ⟨?_, fun hco => ?_⟩
                · rw [crawlEntries_fileWrite_eq hends hmatch hex]
                · rw [crawlEntries_fileWrite_eq hends hmatch hex] at hco
                  have hco2 : (crawlEntries rpath rest outdir
                      (fsWrite fs (ospJoin outdir h) content)).err = none := hco
                  rw [maxDepthEntries_cons_eq]
                  exact max_le (by simp [hends]) (hneed2 hco2)
        · rw [crawlEntriesFuel_nomatch_eq hends hmatch] at hr
          obtain ⟨hag2, hneed2⟩ := ih rpath outdir fs r hr
          refine ⟨?_, fun hco => ?_⟩
          · rw [crawlEntries_nomatch_eq hends hmatch]
            exact hag2
          · rw [crawlEntries_nomatch_eq hends hmatch] at hco
            rw [maxDepthEntries_cons_eq]
            exact max_le (by simp [hends]) (hneed2 hco)

theorem fuel_node_exact :
    ∀ (fuel : Nat) (rpath : List PStr) (node : RNode) (outdir : PStr) (fs : FS)
      (r : CrawlRes),
      crawlNodeFuel fuel rpath node outdir fs = some r →
      r = crawlNode rpath node outdir fs ∧
        ((crawlNode rpath node outdir fs).err = none → treeDepth node ≤ fuel) := by
  intro fuel
  induction fuel with
  | zero =>
    intro rpath node outdir fs r hr
    rw [crawlNodeFuel_zero_eq] at hr
    cases hr
  | succ f ihf =>
    intro rpath node outdir fs r hr
    cases hmk : makedirs fs outdir with
    | error e =>
      rw [crawlNodeFuel_err_eq hmk] at hr
      cases hr
      refine ⟨(crawlNode_err_eq hmk rpath node).symm, fun hco => ?_⟩
      rw [crawlNode_err_eq hmk] at hco
      cases (show (some e : Option PyErr) = none from hco)
    | ok fs1 =>
      cases node with
      | netFail =>
        rw [crawlNodeFuel_netFail_ok_eq hmk] at hr
        cases hr
        refine ⟨(crawlNode_netFail_ok_eq hmk rpath).symm, fun hco => ?_⟩
        rw [crawlNode_netFail_ok_eq hmk] at hco
        cases (show (some PyErr.fetchError : Option PyErr) = none from hco)
      | resp ok body anchors =>
        cases anchors with
        | nil =>
          rw [crawlNodeFuel_nil_ok_eq hmk] at hr
          cases hr
          refine ⟨(crawlNode_nil_ok_eq hmk rpath ok body).symm, fun _ => ?_⟩
          rw [treeDepth_nil_eq]
          omega
        | cons hd rest =>
          rw [crawlNodeFuel_cons_ok_eq hmk] at hr
          cases hf2 : crawlEntriesFuel f rpath rest outdir fs1 with
          | none => rw [hf2, andThen_none] at hr; cases hr
          | some r2 =>
            rw [hf2] at hr
            simp only [andThen_some] at hr
            cases hr
            obtain ⟨hag2, hneed2⟩ := fuel_entries_exact f ihf rest rpath outdir fs1 r2 hf2
            subst hag2
            refine ⟨?_, fun hco => ?_⟩
            · rw [crawlNode_cons_ok_eq hmk]
            · rw [crawlNode_cons_ok_eq hmk] at hco
              have hco2 : (crawlEntries rpath rest outdir fs1).err = none := hco
              rw [treeDepth_cons_eq]
              have := hneed2 hco2
              omega

/-! ### Claim theorems -/

/-- Remote tree for the C1 counterexample: the listing of `2021/` fails with
a network error, and the later sibling `2022/` holds a valid matching file. -/
def c1tree : RNode := .resp true [] [
  .mk (some (pstr "../")) (.resp true [] []),
  .mk (some (pstr "2021/")) .netFail,
  .mk (some (pstr "2022/")) (.resp true [] [
    .mk (some (pstr "../")) (.resp true [] []),
    .mk (some (pstr "a_extent_v4.0.tif")) (.resp true [7] [])])]

/-- Claim C1, counterexample: when listing `2021/` raises a network error,
the sibling `2022/` enumerated after it is never visited and its matching
file is never downloaded — the whole crawl aborts with the exception.  The
claim's failure isolation does not hold. -/
theorem c1_failing_subtree_counterexample :
    crawlNode [] c1tree (pstr "data") [] =
      ⟨[(pstr "data/2021", .dir), (pstr "data", .dir)],
       [.listFetch [] (pstr "data"), .listFetch [pstr "2021/"] (pstr "data/2021")],
       some .fetchError⟩ ∧
    fsLookup (crawlNode [] c1tree (pstr "data") []).fs
      (pstr "data/2022/a_extent_v4.0.tif") = none := by
  constructor <;> decide

/-- Claim C1 (amended): an uncaught exception during a directory listing or
a file download aborts the entire remaining crawl, not just that subtree:
the error propagates out of the loop, so siblings enumerated after the
failing entry are never processed (results of siblings completed before the
failure persist in the returned filesystem). -/
theorem c1_error_aborts_crawl :
    (∀ (rpath : List PStr) (h : PStr) (child : RNode) (rest : List REntry)
        (outdir : PStr) (fs : FS) (e : PyErr),
      endsSlash h = true →
      (crawlNode (rpath ++ [h]) child (ospJoin outdir (stripSlash h)) fs).err = some e →
      crawlEntries rpath (.mk (some h) child :: rest) outdir fs =
        ⟨(crawlNode (rpath ++ [h]) child (ospJoin outdir (stripSlash h)) fs).fs,
         (crawlNode (rpath ++ [h]) child (ospJoin outdir (stripSlash h)) fs).evs,
         some e⟩) ∧
    (∀ (rpath : List PStr) (h : PStr) (rest : List REntry) (outdir : PStr) (fs : FS),
      endsSlash h = false → reMatch h = true →
      fsExists fs (ospJoin outdir h) = false →
      crawlEntries rpath (.mk (some h) .netFail :: rest) outdir fs =
        ⟨fs, [.fileFetch (rpath ++ [h])], some .fetchError⟩) := by
  constructor
  · intro rpath h child rest outdir fs e hends herr
    rw [crawlEntries_dir_eq hends, herr]
  · intro rpath h rest outdir fs hends hmatch hex
    exact crawlEntries_fileFail_eq (by simp [hends]) hmatch (by simp [hex]) rpath rest

/-- Claim C1, witness for the amended theorem: a failing subtree listing
makes the loop return its error immediately, leaving the later sibling
unprocessed. -/
theorem c1_error_aborts_crawl_witness :
    crawlEntries [] [.mk (some (pstr "2021/")) .netFail,
        .mk (some (pstr "2022/")) (.resp true [] [])] (pstr "data")
        [(pstr "data", .dir)] =
      ⟨(crawlNode [pstr "2021/"] .netFail
          (ospJoin (pstr "data") (stripSlash (pstr "2021/"))) [(pstr "data", .dir)]).fs,
       (crawlNode [pstr "2021/"] .netFail
          (ospJoin (pstr "data") (stripSlash (pstr "2021/"))) [(pstr "data", .dir)]).evs,
       some .fetchError⟩ :=
  c1_error_aborts_crawl.1 [] (pstr "2021/") .netFail
    [.mk (some (pstr "2022/")) (.resp true [] [])] (pstr "data")
    [(pstr "data", .dir)] .fetchError (by decide) (by decide)

/-- Remote tree and local state for the C2 counterexample: the matched file
already exists locally as an EMPTY file. -/
def c2tree : RNode := .resp true [] [
  .mk (some (pstr "../")) (.resp true [] []),
  .mk (some (pstr "b_extent_v4.0.tif")) (.resp true [9] [])]

/-- Local filesystem for the C2 counterexample. -/
def c2fs : FS := [(pstr "data", .dir), (pstr "data/b_extent_v4.0.tif", .file [])]

/-- Claim C2, counterexample: an EMPTY file at the computed local path makes
the crawler skip the download, although no non-empty object exists there —
deduplication is by bare `os.path.exists`, not by non-emptiness. -/
theorem c2_empty_file_counterexample :
    crawlNode [] c2tree (pstr "data") c2fs =
      ⟨c2fs,
       [.listFetch [] (pstr "data"),
        .skipped [pstr "b_extent_v4.0.tif"] (pstr "data/b_extent_v4.0.tif")],
       none⟩ ∧
    fsLookup c2fs (pstr "data/b_extent_v4.0.tif") = some (.file []) := by
  constructor <;> decide

/-- Claim C2 (amended): a matched file is skipped — with a `Skipped` outcome
and no network call for that file — exactly when any filesystem object
(empty files and directories included) exists at its computed local path;
otherwise it is fetched and its body written there. -/
theorem c2_dedup_by_existence (rpath : List PStr) (h : PStr) (ok : Bool)
    (content : List Nat) (anchors : List REntry) (outdir : PStr) (fs : FS)
    (hends : endsSlash h = false) (hmatch : reMatch h = true) :
    (fsExists fs (ospJoin outdir h) = true →
      crawlEntries rpath [.mk (some h) (.resp ok content anchors)] outdir fs =
        ⟨fs, [.skipped (rpath ++ [h]) (ospJoin outdir h)], none⟩) ∧
    (fsExists fs (ospJoin outdir h) = false →
      crawlEntries rpath [.mk (some h) (.resp ok content anchors)] outdir fs =
        ⟨fsWrite fs (ospJoin outdir h) content,
         [.fileFetch (rpath ++ [h]), .downloaded (rpath ++ [h]) (ospJoin outdir h)],
         none⟩) := by
  constructor
  · intro hex
    rw [crawlEntries_skip_eq (by simp [hends]) hmatch hex, crawlEntries_nil_eq]
  · intro hex
    rw [crawlEntries_fileWrite_eq (by simp [hends]) hmatch (by simp [hex]),
      crawlEntries_nil_eq]

/-- Claim C2, witness: with an object already at the local path the file is
skipped without a network call. -/
theorem c2_dedup_by_existence_witness :
    crawlEntries [] [.mk (some (pstr "w_extent_v4.0.tif")) (.resp true [2] [])]
        (pstr "data")
        [(pstr "data", .dir), (pstr "data/w_extent_v4.0.tif", .file [1])] =
      ⟨[(pstr "data", .dir), (pstr "data/w_extent_v4.0.tif", .file [1])],
       [.skipped [pstr "w_extent_v4.0.tif"] (pstr "data/w_extent_v4.0.tif")],
       none⟩ :=
  (c2_dedup_by_existence [] (pstr "w_extent_v4.0.tif") true [2] [] (pstr "data")
    [(pstr "data", .dir), (pstr "data/w_extent_v4.0.tif", .file [1])]
    (by decide) (by decide)).1 (by decide)

/-- Claim C3: running the crawl a second time against the unchanged remote
tree with the same output root, starting from the filesystem that an
error-free first run produced, performs zero network fetches for files
(no file fetched or downloaded: every matched file is skipped), raises no
error, and leaves the local mirror literally identical. -/
theorem c3_second_run_idempotent (t : RNode) (outdir : PStr) (fs : FS)
    (herr : (crawlNode [] t outdir fs).err = none) :
    (crawlNode [] t outdir (crawlNode [] t outdir fs).fs).fs =
      (crawlNode [] t outdir fs).fs ∧
    (crawlNode [] t outdir (crawlNode [] t outdir fs).fs).err = none ∧
    noFetch (crawlNode [] t outdir (crawlNode [] t outdir fs).fs).evs = true :=
  crawlNode_second [] t outdir fs herr _ (FSExt_refl _)

/-- Remote tree for the C3 witness. -/
def c3w : RNode := .resp true [] [
  .mk (some (pstr "../")) (.resp true [] []),
  .mk (some (pstr "x_extent_v4.0.tif")) (.resp true [3] [])]

/-- Claim C3, witness: a concrete error-free crawl whose second run is a
no-op. -/
theorem c3_second_run_idempotent_witness :
    (crawlNode [] c3w (pstr "data") []).err = none ∧
    ((crawlNode [] c3w (pstr "data") (crawlNode [] c3w (pstr "data") []).fs).fs =
       (crawlNode [] c3w (pstr "data") []).fs ∧
     (crawlNode [] c3w (pstr "data") (crawlNode [] c3w (pstr "data") []).fs).err = none ∧
     noFetch (crawlNode [] c3w (pstr "data")
       (crawlNode [] c3w (pstr "data") []).fs).evs = true) :=
  ⟨by decide, c3_second_run_idempotent c3w (pstr "data") [] (by decide)⟩

/-- Remote tree for the C4 counterexample: the file GET returns a non-2xx
response whose body is an error page. -/
def c4tree : RNode := .resp true [] [
  .mk (some (pstr "../")) (.resp true [] []),
  .mk (some (pstr "c_extent_v4.0.tif")) (.resp false [4, 0, 4] [])]

/-- Claim C4, counterexample: a file download whose HTTP status is not a
success does NOT fail with `FetchError`: the crawler silently writes the
body obtained from the failed request to the local path and reports no
error. -/
theorem c4_status_counterexample :
    crawlNode [] c4tree (pstr "data") [] =
      ⟨[(pstr "data", .dir), (pstr "data/c_extent_v4.0.tif", .file [4, 0, 4])],
       [.listFetch [] (pstr "data"),
        .fileFetch [pstr "c_extent_v4.0.tif"],
        .downloaded [pstr "c_extent_v4.0.tif"] (pstr "data/c_extent_v4.0.tif")],
       none⟩ := by
  decide

/-- Claim C4 (amended): a file download fails — with the `requests`
exception propagating — exactly on a network-level failure, in which case
nothing is written; when any HTTP response arrives its status is never
checked and its body, success or error page alike, is written to the local
path as a completed download. -/
theorem c4_download_error_contract (rpath : List PStr) (h : PStr)
    (rest : List REntry) (outdir : PStr) (fs : FS)
    (hends : endsSlash h = false) (hmatch : reMatch h = true)
    (hex : fsExists fs (ospJoin outdir h) = false) :
    (crawlEntries rpath (.mk (some h) .netFail :: rest) outdir fs =
      ⟨fs, [.fileFetch (rpath ++ [h])], some .fetchError⟩) ∧
    (∀ (ok : Bool) (content : List Nat) (anchors : List REntry),
      crawlEntries rpath (.mk (some h) (.resp ok content anchors) :: rest) outdir fs =
        ⟨(crawlEntries rpath rest outdir (fsWrite fs (ospJoin outdir h) content)).fs,
         .fileFetch (rpath ++ [h]) :: .downloaded (rpath ++ [h]) (ospJoin outdir h) ::
           (crawlEntries rpath rest outdir (fsWrite fs (ospJoin outdir h) content)).evs,
         (crawlEntries rpath rest outdir (fsWrite fs (ospJoin outdir h) content)).err⟩) := by
  constructor
  · exact crawlEntries_fileFail_eq (by simp [hends]) hmatch (by simp [hex]) rpath rest
  · intro ok content anchors
    exact crawlEntries_fileWrite_eq (by simp [hends]) hmatch (by simp [hex])
      rpath ok content anchors rest

/-- Claim C4, witness: a network failure on a file download raises the
exception and writes nothing. -/
theorem c4_download_error_contract_witness :
    crawlEntries [] [.mk (some (pstr "y_extent_v4.0.tif")) .netFail] (pstr "data")
        [(pstr "data", .dir)] =
      ⟨[(pstr "data", .dir)], [.fileFetch [pstr "y_extent_v4.0.tif"]],
       some .fetchError⟩ :=
  (c4_download_error_contract [] (pstr "y_extent_v4.0.tif") [] (pstr "data")
    [(pstr "data", .dir)] (by decide) (by decide) (by decide)).1

/-- Remote tree for the C5 counterexample: the second anchor has no href. -/
def c5tree : RNode := .resp true [] [
  .mk (some (pstr "../")) (.resp true [] []),
  .mk none (.resp true [] [])]

/-- Claim C5, counterexample: an anchor without an `href` attribute is not
passed through best-effort — processing it raises `AttributeError`
(`None.endswith`), aborting the crawl. -/
theorem c5_no_href_counterexample :
    crawlNode [] c5tree (pstr "data") [] =
      ⟨[(pstr "data", .dir)], [.listFetch [] (pstr "data")],
       some .attributeError⟩ := by
  decide

/-- Claim C5 (amended): an anchor with no `href` attribute makes the loop
raise `AttributeError` immediately — the entry is not passed through, and
neither it nor any later entry of the listing is processed. -/
theorem c5_no_href_raises (rpath : List PStr) (child : RNode)
    (rest : List REntry) (outdir : PStr) (fs : FS) :
    crawlEntries rpath (.mk none child :: rest) outdir fs =
      ⟨fs, [], some .attributeError⟩ :=
  crawlEntries_none_eq rpath child rest outdir fs

/-- Remote tree for the C6 counterexample: a directory href `n…tif/` and a
file href `n…tif` in the same listing. -/
def c6tree : RNode := .resp true [] [
  .mk (some (pstr "../")) (.resp true [] []),
  .mk (some (pstr "n_extent_v4.0.tif/"))
    (.resp true [] [.mk (some (pstr "../")) (.resp true [] [])]),
  .mk (some (pstr "n_extent_v4.0.tif")) (.resp true [5] [])]

/-- Claim C6, counterexample: within one crawl, the two DISTINCT remote
paths `n_extent_v4.0.tif/` (a directory) and `n_extent_v4.0.tif` (a file)
are both mapped to the same local path `data/n_extent_v4.0.tif` — the
remote-to-local path mapping is not injective. -/
theorem c6_collision_counterexample :
    Ev.listFetch [pstr "n_extent_v4.0.tif/"] (pstr "data/n_extent_v4.0.tif")
      ∈ (crawlNode [] c6tree (pstr "data") []).evs ∧
    Ev.skipped [pstr "n_extent_v4.0.tif"] (pstr "data/n_extent_v4.0.tif")
      ∈ (crawlNode [] c6tree (pstr "data") []).evs ∧
    ([pstr "n_extent_v4.0.tif/"] : List PStr) ≠ [pstr "n_extent_v4.0.tif"] := by
  refine ⟨by decide, by decide, by decide⟩

/-- Claim C6 (amended): the remote-to-local path mapping is deterministic —
every local path appearing in a crawl's trace is the pure function
`localDirOf`/`localFileOf` of the output root and the entry's remote
traversal path, so any two crawls from the same root with the same output
root map a given remote file to the same local path — but it is not
injective. -/
theorem c6_path_mapping_deterministic (t : RNode) (outdir : PStr) (fs : FS) :
    (∀ rp lp, Ev.listFetch rp lp ∈ (crawlNode [] t outdir fs).evs →
      lp = localDirOf outdir rp) ∧
    (∀ rp lp, Ev.skipped rp lp ∈ (crawlNode [] t outdir fs).evs →
      lp = localFileOf outdir rp) ∧
    (∀ rp lp, Ev.downloaded rp lp ∈ (crawlNode [] t outdir fs).evs →
      lp = localFileOf outdir rp) := by
  refine ⟨fun rp lp hmem => ?_, fun rp lp hmem => ?_, fun rp lp hmem => ?_⟩
  · obtain ⟨suf, hrp, hlp⟩ := crawlNode_paths [] t outdir fs _ hmem
    simp only [List.nil_append] at hrp
    rw [hrp]
    exact hlp
  · obtain ⟨s, suf, hrp, hlp⟩ := crawlNode_paths [] t outdir fs _ hmem
    simp only [List.nil_append] at hrp
    rw [hrp]
    exact hlp
  · obtain ⟨s, suf, hrp, hlp⟩ := crawlNode_paths [] t outdir fs _ hmem
    simp only [List.nil_append] at hrp
    rw [hrp]
    exact hlp

/-- Claim C6, witness: the mirrored local directory recorded for the
subdirectory `d/` is the one the pure mapping computes. -/
theorem c6_path_mapping_deterministic_witness :
    Ev.listFetch [pstr "d/"] (pstr "data/d")
      ∈ (crawlNode []
          (.resp true [] [.mk (some (pstr "../")) (.resp true [] []),
            .mk (some (pstr "d/")) (.resp true [] [])])
          (pstr "data") []).evs ∧
    pstr "data/d" = localDirOf (pstr "data") [pstr "d/"] :=
  ⟨by decide,
   (c6_path_mapping_deterministic
     (.resp true [] [.mk (some (pstr "../")) (.resp true [] []),
       .mk (some (pstr "d/")) (.resp true [] [])])
     (pstr "data") []).1 [pstr "d/"] (pstr "data/d") (by decide)⟩

/-- Claim C7, counterexample: for the directory href `/a/`, the crawler
recurses into `join("data", strip("/a/", both sides)) = "data/a"`, whereas
the claim's `join(currentLocalDir, trailing-separator-trimmed name)` is
`join("data", "/a") = "/a"` (POSIX join restarts at an absolute second
component) — a different directory. -/
theorem c7_strip_counterexample :
    crawlEntries [] [.mk (some (pstr "/a/")) (.resp true [] [])] (pstr "data")
        [(pstr "data", .dir)] =
      ⟨[(pstr "data/a", .dir), (pstr "data", .dir)],
       [.listFetch [pstr "/a/"] (pstr "data/a")], none⟩ ∧
    ospJoin (pstr "data") (rstripSlash (pstr "/a/")) = pstr "/a" ∧
    pstr "/a" ≠ pstr "data/a" := by
  refine ⟨by decide, by decide, by decide⟩

/-- Claim C7 (amended): for a listing entry classified as a directory the
crawler recurses with the entry's traversal path and the child local
directory `join(currentLocalDir, name with LEADING AND trailing separators
stripped)`; the child directory is created idempotently (creating an
existing directory is no error) inside the recursive call, and exists in
the resulting filesystem whenever that call finishes without error. -/
theorem c7_child_dir_mapping (rpath : List PStr) (h : PStr) (child : RNode)
    (outdir : PStr) (fs : FS) (hends : endsSlash h = true) :
    crawlEntries rpath [.mk (some h) child] outdir fs =
      crawlNode (rpath ++ [h]) child (ospJoin outdir (stripSlash h)) fs ∧
    (∀ (g : FS) (p : PStr), fsLookup g p = some .dir → makedirs g p = .ok g) ∧
    ((crawlNode (rpath ++ [h]) child (ospJoin outdir (stripSlash h)) fs).err = none →
      fsLookup (crawlEntries rpath [.mk (some h) child] outdir fs).fs
        (ospJoin outdir (stripSlash h)) = some .dir) := by
  have hmain : crawlEntries rpath [.mk (some h) child] outdir fs =
      crawlNode (rpath ++ [h]) child (ospJoin outdir (stripSlash h)) fs := by
    rw [crawlEntries_dir_eq hends]
    rcases hres : crawlNode (rpath ++ [h]) child (ospJoin outdir (stripSlash h)) fs
      with ⟨rfs, revs, rerr⟩
    cases rerr with
    | some e => rfl
    | none =>
      rw [crawlEntries_nil_eq]
      simp
  refine ⟨hmain, fun g p hdir => makedirs_dir_noop hdir, fun herr => ?_⟩
  rw [hmain]
  cases hmk : makedirs fs (ospJoin outdir (stripSlash h)) with
  | error e =>
    rw [crawlNode_err_eq hmk] at herr
    cases (show (some e : Option PyErr) = none from herr)
  | ok fs1 =>
    cases child with
    | netFail =>
      rw [crawlNode_netFail_ok_eq hmk]
      exact makedirs_ok_lookup hmk
    | resp okb body anchors =>
      cases anchors with
      | nil =>
        rw [crawlNode_nil_ok_eq hmk]
        exact makedirs_ok_lookup hmk
      | cons hd rest2 =>
        rw [crawlNode_cons_ok_eq hmk]
        exact crawlEntries_mono _ rest2 _ fs1 _ .dir (makedirs_ok_lookup hmk)

/-- Claim C7, witness: a concrete directory entry `d/` is crawled into
`data/d`, which afterwards exists as a directory. -/
theorem c7_child_dir_mapping_witness :
    crawlEntries [] [.mk (some (pstr "d/")) (.resp true [] [])] (pstr "data")
        [(pstr "data", .dir)] =
      crawlNode [pstr "d/"] (.resp true [] [])
        (ospJoin (pstr "data") (stripSlash (pstr "d/"))) [(pstr "data", .dir)] ∧
    (∀ (g : FS) (p : PStr), fsLookup g p = some .dir → makedirs g p = .ok g) ∧
    ((crawlNode [pstr "d/"] (.resp true [] [])
        (ospJoin (pstr "data") (stripSlash (pstr "d/"))) [(pstr "data", .dir)]).err = none →
      fsLookup (crawlEntries [] [.mk (some (pstr "d/")) (.resp true [] [])]
          (pstr "data") [(pstr "data", .dir)]).fs
        (ospJoin (pstr "data") (stripSlash (pstr "d/"))) = some .dir) :=
  c7_child_dir_mapping [] (pstr "d/") (.resp true [] []) (pstr "data")
    [(pstr "data", .dir)] (by decide)

/-- Claim C8: the first anchor of every listing is skipped unconditionally —
the crawl result does not depend on it in any way, whatever its href or
content: replacing the first anchor by any other anchor leaves the result
unchanged. -/
theorem c8_first_anchor_skipped (rpath : List PStr) (ok : Bool)
    (body : List Nat) (a b : REntry) (rest : List REntry) (outdir : PStr)
    (fs : FS) :
    crawlNode rpath (.resp ok body (a :: rest)) outdir fs =
      crawlNode rpath (.resp ok body (b :: rest)) outdir fs := by
  rw [crawlNode_cons_eq, crawlNode_cons_eq]

/-- Claim C9: on an error-free crawl of a (finite, acyclic) remote tree the
crawl terminates, and its recursion depth is exactly the depth of the tree:
the fuel-bounded crawl completes if and only if the depth bound is at least
`treeDepth`, and at bound `treeDepth` it computes precisely the unbounded
crawl's result. -/
theorem c9_termination_depth (rpath : List PStr) (t : RNode) (outdir : PStr)
    (fs : FS) (herr : (crawlNode rpath t outdir fs).err = none) :
    (∀ fuel, (crawlNodeFuel fuel rpath t outdir fs).isSome = true ↔
      treeDepth t ≤ fuel) ∧
    crawlNodeFuel (treeDepth t) rpath t outdir fs =
      some (crawlNode rpath t outdir fs) := by
  constructor
  · intro fuel
    constructor
    · intro hs
      obtain ⟨r, hr⟩ := Option.isSome_iff_exists.mp hs
      exact (fuel_node_exact fuel rpath t outdir fs r hr).2 herr
    · intro hd
      rw [fuel_node_suffices fuel rpath t outdir fs hd]
      rfl
  · exact fuel_node_suffices (treeDepth t) rpath t outdir fs (le_refl _)

/-- Remote tree of depth two for the C9 witness. -/
def c9t : RNode := .resp true [] [
  .mk (some (pstr "../")) (.resp true [] []),
  .mk (some (pstr "d/")) (.resp true [] [.mk (some (pstr "../")) (.resp true [] [])])]

/-- Claim C9, witness: a depth-two tree crawls without error, and recursion
bound 1 is exactly insufficient while bound 2 suffices. -/
theorem c9_termination_depth_witness :
    (crawlNode [] c9t (pstr "data") []).err = none ∧
    ¬(crawlNodeFuel 1 [] c9t (pstr "data") []).isSome = true ∧
    (crawlNodeFuel 2 [] c9t (pstr "data") []).isSome = true :=
  ⟨by decide,
   fun hs => by
     have := ((c9_termination_depth [] c9t (pstr "data") [] (by decide)).1 1).mp hs
     rw [show treeDepth c9t = 2 by decide] at this
     omega,
   ((c9_termination_depth [] c9t (pstr "data") [] (by decide)).1 2).mpr
     (by rw [show treeDepth c9t = 2 by decide])⟩

/-- Claim C10: for every directory the crawler visits, the mirrored local
directory is created before that directory's listing is fetched: whenever
`makedirs` succeeds the directory is present in the final filesystem no
matter how the rest of the visit goes, and in particular when the listing
fetch itself fails with a network error the directory — the output root
for the root visit — has still been created. -/
theorem c10_dir_created_before_fetch (rpath : List PStr) (node : RNode)
    (outdir : PStr) (fs fs1 : FS) (hmk : makedirs fs outdir = .ok fs1) :
    fsLookup (crawlNode rpath node outdir fs).fs outdir = some .dir ∧
    crawlNode rpath .netFail outdir fs =
      ⟨fs1, [.listFetch rpath outdir], some .fetchError⟩ := by
  constructor
  · cases node with
    | netFail =>
      rw [crawlNode_netFail_ok_eq hmk]
      exact makedirs_ok_lookup hmk
    | resp ok body anchors =>
      cases anchors with
      | nil =>
        rw [crawlNode_nil_ok_eq hmk]
        exact makedirs_ok_lookup hmk
      | cons hd rest =>
        rw [crawlNode_cons_ok_eq hmk]
        exact crawlEntries_mono rpath rest outdir fs1 outdir .dir
          (makedirs_ok_lookup hmk)
  · exact crawlNode_netFail_ok_eq hmk rpath

/-- Claim C10, witness: crawling a root whose listing fetch fails still
creates the output root directory. -/
theorem c10_dir_created_before_fetch_witness :
    fsLookup (crawlNode [] .netFail (pstr "data") []).fs (pstr "data")
      = some .dir ∧
    crawlNode [] .netFail (pstr "data") [] =
      ⟨[(pstr "data", .dir)], [.listFetch [] (pstr "data")], some .fetchError⟩ :=
  c10_dir_created_before_fetch [] .netFail (pstr "data") [] [(pstr "data", .dir)]
    rfl
